import Mathlib

/-!
Shallow embedding of the ringbeam bounded ring-buffer channel
(Kriskras99/ringbeam), together with proofs about the embedded operations.

Machine integers are modelled as `Nat` with explicit reduction modulo `2^32`
(or `2^64`) where the Rust code uses wrapping arithmetic, and bit masks with a
low-bit mask `x & (2^k - 1)` are written `x % 2^k`.  The ring size `N` is a
power of two, so `x & (N - 1)` is written `x % N`.  The high ("finished") bit
of a 32-bit tail word is tested with `Nat.testBit x 31`, which coincides with
the Rust test `x & 0x8000_0000 != 0`.
-/

namespace Ringbeam

/-- The closed error set of the crate (spec §6; the enum declaration itself is
in a crate-root file not present in the source snapshot, but every variant is
used by the code under `src/`). -/
inductive Error where
  | Closed
  | Empty
  | Full
  | NotEnoughItems
  | NotEnoughItemsAndClosed
  | NotEnoughSpace
  | Poisoned
  | TooManyConsumers
  | TooManyProducers
deriving DecidableEq, Repr

/-- `2^32`, the modulus of `u32` arithmetic. -/
def u32Mod : Nat := 2 ^ 32

/-- `2^64`, the modulus of `u64` arithmetic. -/
def u64Mod : Nat := 2 ^ 64

/-- Wrapping 32-bit subtraction `a.wrapping_sub(b)` on values below `2^32`. -/
def wsub32 (a b : Nat) : Nat := (a + (u32Mod - b % u32Mod)) % u32Mod

/- ------------------------------------------------------------------ -/
/- Packed-word codecs (src/src/ring/active.rs, modes/hts.rs, modes/rts.rs) -/
/- ------------------------------------------------------------------ -/

/-- `Active`: counter of active consumers and producers (`src/src/ring/active.rs`).
Both fields are `u16` in the source; the intended bounds are carried as
hypotheses in the theorems. -/
structure Active where
  consumers : Nat
  producers : Nat
deriving DecidableEq, Repr

/-- `impl From<Active> for u32`: `((consumers as u32) << 16) | producers`.
For `producers < 2^16` the disjoint-bit `or` is exactly `consumers * 2^16 + producers`. -/
def Active.toU32 (a : Active) : Nat := a.consumers * 2 ^ 16 + a.producers

/-- `impl From<u32> for Active`: `consumers = (value >> 16) as u16`,
`producers = (value & 0xFFFF) as u16`. -/
def Active.ofU32 (w : Nat) : Active :=
  { consumers := w / 2 ^ 16 % 2 ^ 16, producers := w % 2 ^ 16 }

/-- `HeadTail`: the packed head/tail pair of `HeadTailSync` (`src/src/modes/hts.rs`). -/
structure HeadTail where
  head : Nat
  tail : Nat
deriving DecidableEq, Repr

/-- `impl From<HeadTail> for u64`: `((head as u64) << 32) | tail`. -/
def HeadTail.toU64 (ht : HeadTail) : Nat := ht.head * 2 ^ 32 + ht.tail

/-- `impl From<u64> for HeadTail`: `head = (value >> 32) as u32`,
`tail = (value & 0xFFFF_FFFF) as u32`. -/
def HeadTail.ofU64 (w : Nat) : HeadTail :=
  { head := w / 2 ^ 32 % 2 ^ 32, tail := w % 2 ^ 32 }

/-- `PosCnt`: the packed position/count pair of `RelaxedTailSync` (`src/src/modes/rts.rs`). -/
structure PosCnt where
  pos : Nat
  cnt : Nat
deriving DecidableEq, Repr

/-- `impl From<PosCnt> for u64`: `((pos as u64) << 32) | cnt`. -/
def PosCnt.toU64 (pc : PosCnt) : Nat := pc.pos * 2 ^ 32 + pc.cnt

/-- `impl From<u64> for PosCnt`: `pos = (value >> 32) as u32`,
`cnt = (value & 0xFFFF_FFFF) as u32`. -/
def PosCnt.ofU64 (w : Nat) : PosCnt :=
  { pos := w / 2 ^ 32 % 2 ^ 32, cnt := w % 2 ^ 32 }

/-- C10: the packed-word codecs are round-trip inverses: encoding after
decoding restores any in-range word, and decoding after encoding restores the
original fields. -/
theorem claim_C10_packed_codecs_roundtrip :
    (∀ w : Nat, w < 2 ^ 32 → (Active.ofU32 w).toU32 = w) ∧
    (∀ w : Nat, w < 2 ^ 64 → (HeadTail.ofU64 w).toU64 = w) ∧
    (∀ w : Nat, w < 2 ^ 64 → (PosCnt.ofU64 w).toU64 = w) ∧
    (∀ c p : Nat, c < 2 ^ 16 → p < 2 ^ 16 →
      Active.ofU32 (Active.toU32 ⟨c, p⟩) = ⟨c, p⟩) ∧
    (∀ h t : Nat, h < 2 ^ 32 → t < 2 ^ 32 →
      HeadTail.ofU64 (HeadTail.toU64 ⟨h, t⟩) = ⟨h, t⟩) ∧
    (∀ p c : Nat, p < 2 ^ 32 → c < 2 ^ 32 →
      PosCnt.ofU64 (PosCnt.toU64 ⟨p, c⟩) = ⟨p, c⟩) := by
  refine ⟨?_, ?_, ?_, ?_, ?_, ?_⟩
  · intro w hw
    simp only [Active.ofU32, Active.toU32]
    omega
  · intro w hw
    simp only [HeadTail.ofU64, HeadTail.toU64]
    omega
  · intro w hw
    simp only [PosCnt.ofU64, PosCnt.toU64]
    omega
  · intro c p hc hp
    simp only [Active.ofU32, Active.toU32, Active.mk.injEq]
    omega
  · intro h t hh ht
    simp only [HeadTail.ofU64, HeadTail.toU64, HeadTail.mk.injEq]
    omega
  · intro p c hp hc
    simp only [PosCnt.ofU64, PosCnt.toU64, PosCnt.mk.injEq]
    omega

/-- Witness for C10 at concrete words and fields. -/
theorem claim_C10_packed_codecs_roundtrip_witness :
    (2 ^ 16 + 5 : Nat) < 2 ^ 32 ∧
      (Active.ofU32 (2 ^ 16 + 5)).toU32 = 2 ^ 16 + 5 ∧
      Active.ofU32 (Active.toU32 ⟨3, 7⟩) = ⟨3, 7⟩ :=
  ⟨by decide,
   claim_C10_packed_codecs_roundtrip.1 (2 ^ 16 + 5) (by decide),
   claim_C10_packed_codecs_roundtrip.2.2.2.1 3 7 (by decide) (by decide)⟩

/- ------------------------------------------------------------------ -/
/- calculate_available (src/src/modes/mod.rs, lines 181-220)           -/
/- ------------------------------------------------------------------ -/

/-- The `available` expression of `calculate_available`
(`src/src/modes/mod.rs:195`):
`start.wrapping_add(tail & 0x7FFF_FFFF).wrapping_sub(head) & (N - 1)`
with `start = N - 1` for a producer and `0` for a consumer. -/
def codeAvailable (N : Nat) (isProd : Bool) (head tail : Nat) : Nat :=
  ((if isProd then N - 1 else 0) + tail % 2 ^ 31) % u32Mod
    |> (wsub32 · head) |> (· % N)

/-- `calculate_available` (`src/src/modes/mod.rs:181-220`), translated
branch for branch from the source. `expected` is a `NonZeroU32` there. -/
def calculate_available (N : Nat) (isProd exact : Bool)
    (head tail expected : Nat) : Except Error Nat :=
  if isProd && tail.testBit 31 then .error .Closed
  else if head.testBit 31 then .error .Poisoned
  else
    let available := codeAvailable N isProd head tail
    if available = 0 then
      if tail.testBit 31 then .error .Closed
      else if isProd then .error .Full
      else .error .Empty
    else if exact && decide (expected > available) then
      if isProd then .error .NotEnoughSpace
      else if tail.testBit 31 then .error .NotEnoughItemsAndClosed
      else .error .NotEnoughItems
    else .ok (min expected available)

/-- A successful `calculate_available` returns `min expected available`. -/
theorem calculate_available_ok_val {N : Nat} {isProd exact : Bool}
    {head tail expected v : Nat}
    (h : calculate_available N isProd exact head tail expected = .ok v) :
    v = min expected (codeAvailable N isProd head tail) := by
  simp only [calculate_available] at h
  repeat' split at h
  all_goals first
    | (injection h with h2; exact h2.symm)
    | (injection h)

/-- The availability in the spec's words (spec §4.1 "Availability math"):
producer `((N − 1) + tail_opposite − head) mod N`, consumer
`(tail_opposite − head) mod N`, with the opposite tail masked to its low
31 bits, computed in the integers so the subtraction cannot underflow. -/
def specAvailable (N : Nat) (isProd : Bool) (head tail : Nat) : Nat :=
  (((if isProd then (N : Int) - 1 else 0) + (tail % 2 ^ 31 : Nat) - head) % (N : Int)).toNat

/-- The error ladder in the spec's words (spec §4.1, items 1-5), stated over
`specAvailable`.  This is the second definition of a refinement pair; the code
side is `calculate_available`. -/
def specErrorLadder (N : Nat) (isProd exact : Bool)
    (head tail expected : Nat) : Except Error Nat :=
  if isProd && tail.testBit 31 then .error .Closed
  else if head.testBit 31 then .error .Poisoned
  else if specAvailable N isProd head tail = 0 then
    if tail.testBit 31 then .error .Closed
    else if isProd then .error .Full
    else .error .Empty
  else if exact && decide (expected > specAvailable N isProd head tail) then
    if isProd then .error .NotEnoughSpace
    else if tail.testBit 31 then .error .NotEnoughItemsAndClosed
    else .error .NotEnoughItems
  else .ok (min expected (specAvailable N isProd head tail))

/-- Reducing modulo `2^32` and then modulo `2^k` (`k ≤ 32`) is reducing
modulo `2^k`. -/
theorem mod_u32_mod_pow {k : Nat} (hk : k ≤ 32) (a : Nat) :
    a % u32Mod % 2 ^ k = a % 2 ^ k :=
  Nat.mod_mod_of_dvd a (Nat.pow_dvd_pow 2 hk)

/-- A wrapped natural subtraction `(a + (U - b)) % N` with `N ∣ U` and
`b ≤ U` is the integer difference `a - b` reduced modulo `N`. -/
theorem nat_wrap_sub_emod (N U a b : Nat) (hdvd : N ∣ U) (hb : b ≤ U) :
    (((a + (U - b)) % N : Nat) : Int) = ((a : Int) - b) % (N : Int) := by
  obtain ⟨m, rfl⟩ := hdvd
  have h1 : ((a + (N * m - b) : Nat) : Int) = (a : Int) - b + (N : Int) * m := by
    push_cast [Nat.cast_sub hb]
    ring
  rw [Int.natCast_mod, h1, Int.add_mul_emod_self_left]

/-- The wrapped-u32 availability of the source equals the spec's mod-`N`
availability, for every power-of-two ring size `N = 2^k ≤ 2^31` and every
head below `2^32`. -/
theorem codeAvailable_eq_specAvailable {k : Nat} (hk : k ≤ 31)
    (isProd : Bool) {head : Nat} (hh : head < 2 ^ 32) (tail : Nat) :
    codeAvailable (2 ^ k) isProd head tail = specAvailable (2 ^ k) isProd head tail := by
  have hk32 : k ≤ 32 := by omega
  have hNpos : (1 : Nat) ≤ 2 ^ k := Nat.one_le_pow k 2 (by norm_num)
  have hhu : head % u32Mod = head := Nat.mod_eq_of_lt hh
  have hdvd : (2 ^ k : Nat) ∣ u32Mod := Nat.pow_dvd_pow 2 hk32
  -- collapse the wrapping arithmetic to a single reduction modulo N
  have hcode : codeAvailable (2 ^ k) isProd head tail
      = ((if isProd then 2 ^ k - 1 else 0) + tail % 2 ^ 31 + (u32Mod - head)) % 2 ^ k := by
    simp only [codeAvailable, wsub32, hhu]
    rw [mod_u32_mod_pow hk32]
    exact Nat.ModEq.add_right _ ((Nat.mod_modEq _ u32Mod).of_dvd hdvd)
  have hAcast : (((if isProd then 2 ^ k - 1 else 0) + tail % 2 ^ 31 : Nat) : Int)
      = (if isProd then ((2 ^ k : Nat) : Int) - 1 else 0) + ((tail % 2 ^ 31 : Nat) : Int) := by
    rw [Nat.cast_add]
    congr 1
    cases isProd with
    | false => simp
    | true =>
      simp only [if_true]
      rw [Nat.cast_sub hNpos, Nat.cast_one]
  have hcast : ((codeAvailable (2 ^ k) isProd head tail : Nat) : Int)
      = ((if isProd then ((2 ^ k : Nat) : Int) - 1 else 0) + ((tail % 2 ^ 31 : Nat) : Int)
          - head) % ((2 ^ k : Nat) : Int) := by
    rw [hcode, nat_wrap_sub_emod _ _ _ _ hdvd (le_of_lt hh), hAcast]
  have hspec : specAvailable (2 ^ k) isProd head tail
      = (((if isProd then ((2 ^ k : Nat) : Int) - 1 else 0) + ((tail % 2 ^ 31 : Nat) : Int)
          - head) % ((2 ^ k : Nat) : Int)).toNat := rfl
  have hNne : ((2 ^ k : Nat) : Int) ≠ 0 := by
    have h0 : (0 : Int) < ((2 ^ k : Nat) : Int) := by exact_mod_cast hNpos
    exact ne_of_gt h0
  have hnonneg : 0 ≤ ((if isProd then ((2 ^ k : Nat) : Int) - 1 else 0)
      + ((tail % 2 ^ 31 : Nat) : Int) - head) % ((2 ^ k : Nat) : Int) :=
    Int.emod_nonneg _ hNne
  omega

/-- C1: `calculate_available` follows the spec's error ladder in order:
producer with finished opposite tail ↦ `Closed`; finished own head ↦
`Poisoned`; zero availability ↦ `Closed` when the opposite tail is finished
and otherwise `Full` (producer) / `Empty` (consumer); `EXACT` with
`expected > available` ↦ `NotEnoughSpace` (producer) /
`NotEnoughItemsAndClosed` or `NotEnoughItems` (consumer, by the opposite
tail's finished bit); otherwise success. -/
theorem claim_C1_error_ladder (k : Nat) (hk1 : 1 ≤ k) (hk : k ≤ 31)
    (isProd exact : Bool) (head tail expected : Nat)
    (hh : head < 2 ^ 32) (hexp : 1 ≤ expected) :
    calculate_available (2 ^ k) isProd exact head tail expected
      = specErrorLadder (2 ^ k) isProd exact head tail expected := by
  unfold calculate_available specErrorLadder
  rw [codeAvailable_eq_specAvailable hk isProd hh tail]

/-- Witness for C1 at `N = 4`, a producer with `head = 0`, `tail = 0`,
`expected = 1`. -/
theorem claim_C1_error_ladder_witness :
    (1 ≤ 2 ∧ (2 : Nat) ≤ 31 ∧ (0 : Nat) < 2 ^ 32 ∧ (1 : Nat) ≤ 1) ∧
      calculate_available (2 ^ 2) true true 0 0 1
        = specErrorLadder (2 ^ 2) true true 0 0 1 ∧
      calculate_available (2 ^ 2) true true 0 0 1 = .ok 1 :=
  ⟨⟨by decide, by decide, by decide, by decide⟩,
   claim_C1_error_ladder 2 (by decide) (by decide) true true 0 0 1 (by decide) (by decide),
   by rfl⟩

/- ------------------------------------------------------------------ -/
/- Claim token (src/src/modes/mod.rs, lines 100-167)                   -/
/- ------------------------------------------------------------------ -/

/-- `Claim` of `src/src/modes/mod.rs` (`entries` is a `NonZeroU32` in the
source; positivity is established by the theorems rather than by the type). -/
structure ModeClaim where
  entries : Nat
  start : Nat
deriving DecidableEq, Repr

/-- `Claim::new_tail::<N>` (`src/src/modes/mod.rs:150-154`):
`start.wrapping_add(entries) & (N - 1)`.  The source consumes the claim
through `ManuallyDrop`, so the drop guard does not run. -/
def ModeClaim.new_tail (N : Nat) (c : ModeClaim) : Nat :=
  (c.start + c.entries) % u32Mod % N

/-- The message of the `assert!` in `Claim::drop` (`src/src/modes/mod.rs:162-165`). -/
def claimDropMessage : String := "Claim was dropped before being returned"

/-- `Claim::drop` (`src/src/modes/mod.rs:157-167`): asserts
`std::thread::panicking()`; when the thread is not already unwinding this
panics with `claimDropMessage`, modelled as `some message`. -/
def claimDropOutcome (panicking : Bool) : Option String :=
  if panicking then none else some claimDropMessage

/-- C8: dropping a claim not consumed via `new_tail` panics with
"Claim was dropped before being returned" unless the thread is already
unwinding, and `new_tail` yields `(start + entries) mod N`. -/
theorem claim_C8_claim_drop_guard (k : Nat) (hk : k ≤ 32) (c : ModeClaim) :
    claimDropOutcome false = some claimDropMessage ∧
      claimDropOutcome true = none ∧
      ModeClaim.new_tail (2 ^ k) c = (c.start + c.entries) % 2 ^ k := by
  refine ⟨rfl, rfl, ?_⟩
  unfold ModeClaim.new_tail
  exact mod_u32_mod_pow hk _

/-- Witness for C8 at `N = 4` and the claim `entries = 1, start = 3`. -/
theorem claim_C8_claim_drop_guard_witness :
    claimDropOutcome false = some claimDropMessage ∧
      claimDropOutcome true = none ∧
      ModeClaim.new_tail (2 ^ 2) ⟨1, 3⟩ = (3 + 1) % 2 ^ 2 :=
  claim_C8_claim_drop_guard 2 (by decide) ⟨1, 3⟩

/- ------------------------------------------------------------------ -/
/- Single mode (src/src/modes/single.rs)                               -/
/- ------------------------------------------------------------------ -/

/-- The head and tail atomics of `Single` (`src/src/modes/single.rs`). -/
structure SingleState where
  head : Nat
  tail : Nat
deriving DecidableEq, Repr

/-- `Single::move_head` (`src/src/modes/single.rs:31-53`): load the head,
load the opposite tail (the fence and orderings have no sequential content),
run `calculate_available`, store `head.wrapping_add(available) & (N - 1)`,
and return `Claim::many(available, old_head)`. -/
def single_move_head (N : Nat) (isProd exact : Bool) (s : SingleState)
    (otherTail expected : Nat) : Except Error (ModeClaim × SingleState) :=
  match calculate_available N isProd exact s.head otherTail expected with
  | .error e => .error e
  | .ok available =>
      let newHead := (s.head + available) % u32Mod % N
      .ok (⟨available, s.head⟩, ⟨newHead, s.tail⟩)

/-- C2: the availability computed by `calculate_available` is
`(N − 1 + tail_opposite − head) mod N` for a producer and
`(tail_opposite − head) mod N` for a consumer (opposite tail masked to its
low 31 bits), and a successful `Single::move_head` grants a claim of exactly
`min expected available` entries starting at the given head. -/
theorem claim_C2_availability_and_grant (k : Nat) (hk1 : 1 ≤ k) (hk : k ≤ 31)
    (head tail expected : Nat) (hh : head < 2 ^ k) (hexp : 1 ≤ expected) :
    codeAvailable (2 ^ k) true head tail = specAvailable (2 ^ k) true head tail ∧
      codeAvailable (2 ^ k) false head tail = specAvailable (2 ^ k) false head tail ∧
      (∀ (isProd exact : Bool) (ownTail : Nat) (claim : ModeClaim) (s' : SingleState),
        single_move_head (2 ^ k) isProd exact ⟨head, ownTail⟩ tail expected
            = .ok (claim, s') →
          claim.entries = min expected (specAvailable (2 ^ k) isProd head tail) ∧
            claim.start = head) := by
  have hh32 : head < 2 ^ 32 := lt_of_lt_of_le hh (Nat.pow_le_pow_right (by norm_num) (by omega))
  refine ⟨codeAvailable_eq_specAvailable hk true hh32 tail,
    codeAvailable_eq_specAvailable hk false hh32 tail, ?_⟩
  intro isProd exact ownTail claim s' hok
  unfold single_move_head at hok
  cases hca : calculate_available (2 ^ k) isProd exact
      (SingleState.head ⟨head, ownTail⟩) tail expected with
  | error e =>
    rw [hca] at hok
    exact absurd hok (by simp)
  | ok v =>
    rw [hca] at hok
    simp only [Except.ok.injEq, Prod.mk.injEq] at hok
    obtain ⟨hclaim, -⟩ := hok
    have hv : v = min expected (codeAvailable (2 ^ k) isProd head tail) :=
      calculate_available_ok_val hca
    rw [← hclaim]
    rw [← codeAvailable_eq_specAvailable hk isProd hh32 tail, ← hv]
    exact ⟨rfl, rfl⟩

/-- Witness for C2 at `N = 4`, `head = 1`, `tail = 3`, `expected = 2`,
non-exact: the producer availability is `(4 − 1 + 3 − 1) mod 4 = 1` and the
call grants `min 2 1 = 1` entry at head `1`. -/
theorem claim_C2_availability_and_grant_witness :
    codeAvailable (2 ^ 2) true 1 3 = specAvailable (2 ^ 2) true 1 3 ∧
      single_move_head (2 ^ 2) true false ⟨1, 0⟩ 3 2 = .ok (⟨1, 1⟩, ⟨2, 0⟩) ∧
      ModeClaim.entries ⟨1, 1⟩ = min 2 (specAvailable (2 ^ 2) true 1 3) := by
  have h := claim_C2_availability_and_grant 2 (by decide) (by decide) 1 3 2
    (by decide) (by decide)
  exact ⟨h.1, by rfl, (h.2.2 true false 0 ⟨1, 1⟩ ⟨2, 0⟩ (by rfl)).1⟩

/- ------------------------------------------------------------------ -/
/- RelaxedTailSync (src/src/modes/rts.rs)                              -/
/- ------------------------------------------------------------------ -/

/-- One successful pass of the CAS loop of `RelaxedTailSync::update_tail`
(`src/src/modes/rts.rs:172-196`): given the loaded tail and head it computes
`new_tail = (pos = tail.pos, cnt = tail.cnt.wrapping_add(1) & (N - 1))`, and
when `new_tail.cnt == head.cnt` sets `new_tail.pos = head.pos`.  The returned
claim is consumed (`claim.new_tail`) but otherwise unused. -/
def rts_update_tail (N : Nat) (claim : ModeClaim) (oldTail head : PosCnt) : PosCnt :=
  let _ := claim.new_tail N
  let cnt := (oldTail.cnt + 1) % u32Mod % N
  if cnt = head.cnt then { pos := head.pos, cnt := cnt }
  else { pos := oldTail.pos, cnt := cnt }

/-- C3: `RelaxedTailSync::update_tail` increments the tail's `cnt` by 1
modulo `N`; it moves `pos` (to the head's `pos`) exactly when the incremented
`cnt` equals the head's `cnt`, i.e. for the last outstanding claim, and
leaves `pos` unchanged otherwise. -/
theorem claim_C3_rts_update_tail (k : Nat) (hk : k ≤ 32)
    (claim : ModeClaim) (oldTail head : PosCnt) :
    (rts_update_tail (2 ^ k) claim oldTail head).cnt = (oldTail.cnt + 1) % 2 ^ k ∧
      ((rts_update_tail (2 ^ k) claim oldTail head).cnt = head.cnt →
        (rts_update_tail (2 ^ k) claim oldTail head).pos = head.pos) ∧
      ((rts_update_tail (2 ^ k) claim oldTail head).cnt ≠ head.cnt →
        (rts_update_tail (2 ^ k) claim oldTail head).pos = oldTail.pos) := by
  unfold rts_update_tail
  rw [mod_u32_mod_pow hk]
  by_cases h : (oldTail.cnt + 1) % 2 ^ k = head.cnt
  · simp [h]
  · simp [h]

/-- Witness for C3 at `N = 4`: a return that is the last outstanding claim
(`cnt` reaches the head's `cnt`) moves `pos` to the head's `pos`. -/
theorem claim_C3_rts_update_tail_witness :
    (rts_update_tail (2 ^ 2) ⟨1, 0⟩ ⟨0, 1⟩ ⟨3, 2⟩).cnt = (1 + 1) % 2 ^ 2 ∧
      (rts_update_tail (2 ^ 2) ⟨1, 0⟩ ⟨0, 1⟩ ⟨3, 2⟩).pos = 3 := by
  have h := claim_C3_rts_update_tail 2 (by decide) ⟨1, 0⟩ ⟨0, 1⟩ ⟨3, 2⟩
  exact ⟨h.1, h.2.1 (by rfl)⟩

/- ------------------------------------------------------------------ -/
/- Participant accounting (src/src/ring/active.rs)                     -/
/- ------------------------------------------------------------------ -/

/-- `AtomicActive::register_producer` (`src/src/ring/active.rs:80-100`):
the CAS update succeeds (incrementing) when `0 < producers < u16::MAX`;
otherwise the old value is classified `0 ↦ Closed`, `u16::MAX ↦ Poisoned`,
`_ ↦ TooManyProducers`. -/
def register_producer (a : Active) : Except Error Active :=
  if 0 < a.producers ∧ a.producers < 65535 then
    .ok { a with producers := a.producers + 1 }
  else if a.producers = 0 then .error .Closed
  else if a.producers = 65535 then .error .Poisoned
  else .error .TooManyProducers

/-- `AtomicActive::register_consumer` (`src/src/ring/active.rs:107-127`). -/
def register_consumer (a : Active) : Except Error Active :=
  if 0 < a.consumers ∧ a.consumers < 65535 then
    .ok { a with consumers := a.consumers + 1 }
  else if a.consumers = 0 then .error .Closed
  else if a.consumers = 65535 then .error .Poisoned
  else .error .TooManyConsumers

/-- C5 (code bug evidence): registration does NOT cap the live counts at
`u16::MAX − 1`.  With `producers = 0xFFFE` a registration succeeds and raises
the count to `0xFFFF`, the poison sentinel; with `producers = 0xFFFF` the
error is `Poisoned`, not `TooManyProducers` (which is unreachable).  The
consumer side behaves the same way. -/
theorem claim_C5_register_cap_bug :
    register_producer ⟨1, 65534⟩ = .ok ⟨1, 65535⟩ ∧
      register_producer ⟨1, 65535⟩ = .error .Poisoned ∧
      register_consumer ⟨65534, 1⟩ = .ok ⟨65535, 1⟩ ∧
      register_consumer ⟨65535, 1⟩ = .error .Poisoned ∧
      (∀ a : Active, a.producers < 65536 →
        register_producer a ≠ .error .TooManyProducers) ∧
      (∀ a : Active, a.consumers < 65536 →
        register_consumer a ≠ .error .TooManyConsumers) := by
  refine ⟨by rfl, by rfl, by rfl, by rfl, ?_, ?_⟩
  · intro a ha h
    unfold register_producer at h
    split at h
    · exact absurd h (by simp)
    · split at h
      · exact absurd h (by simp)
      · split at h
        · exact absurd h (by simp)
        · omega
  · intro a ha h
    unfold register_consumer at h
    split at h
    · exact absurd h (by simp)
    · split at h
      · exact absurd h (by simp)
      · split at h
        · exact absurd h (by simp)
        · omega

/-- Witness for C5: the in-range bound of the unreachability conjuncts
holds at a concrete counter. -/
theorem claim_C5_register_cap_bug_witness :
    Active.producers ⟨1, 7⟩ < 65536 ∧
      register_producer ⟨1, 7⟩ ≠ .error .TooManyProducers :=
  ⟨by decide, claim_C5_register_cap_bug.2.2.2.2.1 ⟨1, 7⟩ (by decide)⟩

/- ------------------------------------------------------------------ -/
/- Ring::cleanup (src/src/ring/mod.rs, lines 144-161)                  -/
/- ------------------------------------------------------------------ -/

/-- The guard of the spin loop in `Ring::cleanup`
(`src/src/ring/mod.rs:154`): the loop keeps spinning while
`!cons_headtail.is_finished() && !prod_headtail.is_finished()`; the function
deallocates as soon as this guard is false. -/
def cleanup_spin_guard (consFinished prodFinished : Bool) : Bool :=
  !consFinished && !prodFinished

/-- C4 (code bug evidence): `Ring::cleanup` deallocates as soon as EITHER
tail is finished-marked, not only when both are.  With the consumer tail not
finished and the producer tail finished the spin guard is already false, so
the deallocation proceeds although "both tails finished" does not hold;
its own doc comment says it waits for both. -/
theorem claim_C4_cleanup_waits_for_either_tail :
    cleanup_spin_guard false true = false ∧
      cleanup_spin_guard true false = false ∧
      cleanup_spin_guard false false = true ∧
      (false && true) = false := by
  exact ⟨rfl, rfl, rfl, rfl⟩

/- ------------------------------------------------------------------ -/
/- Ring coordinator enqueue (src/src/ring/mod.rs, lines 179-347)       -/
/- ------------------------------------------------------------------ -/

/-- `Claim` of `src/src/ring/mod.rs` (`entries` may be zero there,
`Claim::zero()`). -/
structure RingClaim where
  entries : Nat
  start : Nat
deriving DecidableEq, Repr

/-- `Claim::new_tail::<N>` of `src/src/ring/mod.rs:444-453`:
`new = start + entries` as `u64`; if `new >= N` subtract `N`. -/
def RingClaim.new_tail (N : Nat) (c : RingClaim) : Nat :=
  if N ≤ c.start + c.entries then c.start + c.entries - N else c.start + c.entries

/-- `Ring::uninitialized_entries` (`src/src/ring/mod.rs:376-380`):
`(N - 1 + (cons_tail & 0x7FFF_FFFF)).wrapping_sub(prod_head) & (N - 1)`. -/
def uninitialized_entries (N prodHead consTail : Nat) : Nat :=
  wsub32 (N - 1 + consTail % 2 ^ 31) prodHead % N

/-- `Ring::claim_prod` (`src/src/ring/mod.rs:183-230`) for a sequential
step (the CAS of the multi-sender case succeeds, the single-sender case
stores): returns the claim together with the resulting producer head.
`fixed` is `Q::FIXED` of the `QueueBehaviour` parameter. -/
def claim_prod (N : Nat) (fixed : Bool) (n prodHead consTail : Nat) :
    Except Error (RingClaim × Nat) :=
  let entries := uninitialized_entries N prodHead consTail
  if entries = 0 then
    if consTail.testBit 31 then .error .Closed
    else .ok (⟨0, 0⟩, prodHead)
  else if fixed && decide (n > entries) then .error .NotEnoughSpace
  else
    let granted := min n entries
    .ok (⟨granted, prodHead⟩, (prodHead + granted) % N)

/-- `Ring::try_enqueue` (`src/src/ring/mod.rs:310-347`) for a sequential
step, with the resulting producer head and producer tail made explicit:
claims for `len = values.len()` entries, maps an all-zero claim to
`Err(Full)`, and otherwise writes and returns the claim through
`return_claim_prod` (`src/src/ring/mod.rs:232-240`), which stores
`claim.new_tail::<N>()` as the producer tail. -/
def try_enqueue (N : Nat) (fixed : Bool)
    (len prodHead prodTail consTail : Nat) : Except Error Nat × Nat × Nat :=
  match claim_prod N fixed len prodHead consTail with
  | .error e => (.error e, prodHead, prodTail)
  | .ok (claim, newHead) =>
    if claim.entries = 0 then (.error .Full, newHead, prodTail)
    else (.ok claim.entries, newHead, claim.new_tail N)

/-- C6 counterexample: a bulk enqueue of a zero-length iterator on an empty
`N = 4` ring does NOT return `Ok(0)`: it returns `Err(Full)`. -/
theorem claim_C6_zero_len_counterexample :
    (try_enqueue (2 ^ 2) true 0 0 0 0).1 ≠ .ok 0 ∧
      (try_enqueue (2 ^ 2) true 0 0 0 0).1 = .error .Full := by
  refine ⟨?_, by rfl⟩
  intro h
  rw [show (try_enqueue (2 ^ 2) true 0 0 0 0).1 = .error .Full from rfl] at h
  injection h

/-- C6 amended: a zero-length bulk enqueue takes no entries and leaves the
producer head and tail values unchanged, but it returns `Err(Closed)` when
no slot is available and the consumer tail has the finished bit set, and
`Err(Full)` otherwise — never `Ok(0)`. -/
theorem claim_C6_zero_len_enqueue (k : Nat) (hk1 : 1 ≤ k) (hk : k ≤ 31)
    (fixed : Bool) (prodHead prodTail consTail : Nat) (hh : prodHead < 2 ^ k) :
    (try_enqueue (2 ^ k) fixed 0 prodHead prodTail consTail).1
        = (if uninitialized_entries (2 ^ k) prodHead consTail = 0 ∧ consTail.testBit 31
           then .error .Closed else .error .Full) ∧
      (try_enqueue (2 ^ k) fixed 0 prodHead prodTail consTail).2.1 = prodHead ∧
      (try_enqueue (2 ^ k) fixed 0 prodHead prodTail consTail).2.2 = prodTail := by
  unfold try_enqueue claim_prod
  by_cases he : uninitialized_entries (2 ^ k) prodHead consTail = 0
  · by_cases hb : consTail.testBit 31
    · simp [he, hb]
    · simp [he, hb]
  · have hmin : min 0 (uninitialized_entries (2 ^ k) prodHead consTail) = 0 :=
      Nat.min_eq_left (Nat.zero_le _)
    have hhead : prodHead % 2 ^ k = prodHead := Nat.mod_eq_of_lt hh
    simp [he, hmin, hhead]

/-- Witness for C6 (amended) at `N = 4` with one free slot and an
unfinished consumer tail. -/
theorem claim_C6_zero_len_enqueue_witness :
    (try_enqueue (2 ^ 2) false 0 2 2 3 : Except Error Nat × Nat × Nat).1
        = (if uninitialized_entries (2 ^ 2) 2 3 = 0 ∧ Nat.testBit 3 31
           then .error .Closed else .error .Full) ∧
      (try_enqueue (2 ^ 2) false 0 2 2 3).2.1 = 2 ∧
      (try_enqueue (2 ^ 2) false 0 2 2 3).2.2 = 2 :=
  claim_C6_zero_len_enqueue 2 (by decide) (by decide) false 2 2 3 (by decide)

/- ------------------------------------------------------------------ -/
/- Sender::try_send (src/src/producer.rs, lines 75-89)                 -/
/- ------------------------------------------------------------------ -/

/-- Every possible producer-side `calculate_available` outcome for a single
value (`expected = 1`): `Closed`, `Poisoned`, `Full`, or a grant of one. -/
theorem calculate_available_one (N : Nat) (exact : Bool) (head tail : Nat) :
    calculate_available N true exact head tail 1 = .error .Closed ∨
      calculate_available N true exact head tail 1 = .error .Poisoned ∨
      calculate_available N true exact head tail 1 = .error .Full ∨
      calculate_available N true exact head tail 1 = .ok 1 := by
  by_cases h1 : tail.testBit 31
  · left
    simp [calculate_available, h1]
  · by_cases h2 : head.testBit 31
    · right; left
      simp [calculate_available, h1, h2]
    · by_cases h3 : codeAvailable N true head tail = 0
      · right; right; left
        simp [calculate_available, h1, h2, h3]
      · right; right; right
        have hge : 1 ≤ codeAvailable N true head tail := Nat.one_le_iff_ne_zero.mpr h3
        have hgt : ¬(1 > codeAvailable N true head tail) := by omega
        simp [calculate_available, h1, h2, h3, hgt, Nat.min_eq_left hge]

/-- Modelled from the spec: `Ring::try_enqueue` of the current iteration —
the 4-generic `Ring` whose `try_enqueue::<EXACT, I>` is called by
`Sender::try_send_bulk`/`try_send_burst` (`src/src/producer.rs:114,141`) —
is not under `src/`; only its callers are.  Per spec §4.3 (Enqueue): a
zero-length iterator returns `Ok(0)` without taking a claim; otherwise the
producer mode's `move_head` runs (its error ladder is `calculate_available`,
every mode forwards those errors unchanged), `Closed` is translated to
`Poisoned` when the participant counter is poisoned, the claim is drained
and returned, and the result is the number written (the granted count). -/
def try_enqueue_spec (N : Nat) (exact : Bool) (len head tail : Nat)
    (poisoned : Bool) : Except Error Nat :=
  if len = 0 then .ok 0
  else
    match calculate_available N true exact head tail len with
    | .error .Closed => .error (if poisoned then .Poisoned else .Closed)
    | .error e => .error e
    | .ok granted => .ok granted

/-- The result of `Sender::try_send`, with the `unreachable!()` arm of the
source made explicit. -/
inductive TrySendResult (α : Type) where
  | ok : Option α → TrySendResult α
  | err : Error → TrySendResult α
  | unreachable_panic : TrySendResult α
deriving DecidableEq, Repr

/-- `Sender::try_send` (`src/src/producer.rs:75-89`): bulk-send the single
value; `Ok(1)` becomes `Ok(None)`, `Err(Full)` gives the unconsumed value
back as `Ok(Some(value))`, other errors pass through, and any other `Ok`
count is `unreachable!()`. -/
def try_send {α : Type} (N head tail : Nat) (poisoned : Bool) (v : α) :
    TrySendResult α :=
  match try_enqueue_spec N true 1 head tail poisoned with
  | .ok 1 => .ok none
  | .error .Full => .ok (some v)
  | .error e => .err e
  | .ok _ => .unreachable_panic

/-- C7: `try_send v` returns `Ok(None)` exactly when the value was enqueued,
`Ok(Some v)` (the identical unconsumed value) exactly when the channel is
full, and otherwise only `Err(Closed)` or `Err(Poisoned)`; in particular it
never surfaces `Err(Full)` or `Err(NotEnoughSpace)` and never reaches the
`unreachable!()` arm. -/
theorem claim_C7_try_send_outcomes (α : Type) (N head tail : Nat)
    (poisoned : Bool) (v : α) :
    (try_send N head tail poisoned v = .ok none ↔
      try_enqueue_spec N true 1 head tail poisoned = .ok 1) ∧
      (try_send N head tail poisoned v = .ok (some v) ↔
        try_enqueue_spec N true 1 head tail poisoned = .error .Full) ∧
      (try_send N head tail poisoned v = .ok none ∨
        try_send N head tail poisoned v = .ok (some v) ∨
        try_send N head tail poisoned v = .err .Closed ∨
        try_send N head tail poisoned v = .err .Poisoned) := by
  rcases calculate_available_one N true head tail with h | h | h | h
  · cases poisoned with
    | false =>
      have hs : try_enqueue_spec N true 1 head tail false = .error .Closed := by
        simp [try_enqueue_spec, h]
      have htv : try_send N head tail false v = .err .Closed := by
        unfold try_send
        rw [hs]
      rw [htv, hs]
      simp
    | true =>
      have hs : try_enqueue_spec N true 1 head tail true = .error .Poisoned := by
        simp [try_enqueue_spec, h]
      have htv : try_send N head tail true v = .err .Poisoned := by
        unfold try_send
        rw [hs]
      rw [htv, hs]
      simp
  · have hs : try_enqueue_spec N true 1 head tail poisoned = .error .Poisoned := by
      simp [try_enqueue_spec, h]
    have htv : try_send N head tail poisoned v = .err .Poisoned := by
      unfold try_send
      rw [hs]
    rw [htv, hs]
    simp
  · have hs : try_enqueue_spec N true 1 head tail poisoned = .error .Full := by
      simp [try_enqueue_spec, h]
    have htv : try_send N head tail poisoned v = .ok (some v) := by
      unfold try_send
      rw [hs]
    rw [htv, hs]
    simp
  · have hs : try_enqueue_spec N true 1 head tail poisoned = .ok 1 := by
      simp [try_enqueue_spec, h]
    have htv : try_send N head tail poisoned v = .ok none := by
      unfold try_send
      rw [hs]
    rw [htv, hs]
    simp

/- ------------------------------------------------------------------ -/
/- Receive iterator (src/src/ring/recv_values.rs)                      -/
/- ------------------------------------------------------------------ -/

/-- `RecvValues` (`src/src/ring/recv_values.rs:14-29`): the claim (paired in
the source with the ring pointer, abstracted here — `none` means no ring
reference is held), the number of consumed items, and the ring offset of the
next item. -/
structure RecvValues where
  claim_and_ring : Option ModeClaim
  consumed : Nat
  offset : Nat
deriving DecidableEq, Repr

/-- `RecvValues::new_empty` (`src/src/ring/recv_values.rs:63-69`). -/
def new_empty : RecvValues := ⟨none, 0, 0⟩

/-- The observable effects of `RecvValues::drop`. -/
structure DropEffects where
  /-- Ring offsets whose value destructor ran, in order. -/
  dropped : List Nat
  /-- The claim handed back through `return_claim_cons`, if any. -/
  returned_claim : Option ModeClaim
  /-- The consumer tail stored by `return_claim_cons`
  (`claim.new_tail::<N>()`), if the claim was returned. -/
  new_cons_tail : Option Nat
  /-- Whether `unregister_consumer` ran. -/
  unregistered : Bool
deriving DecidableEq, Repr

/-- The `while self.consumed != claim.entries()` loop of `RecvValues::drop`
(`src/src/ring/recv_values.rs:156-165`), recursing on the number of
remaining entries: drops the slot at `offset`, then advances
`offset.wrapping_add(1) & (N - 1)`. -/
def drop_loop (N : Nat) : Nat → Nat → List Nat
  | _offset, 0 => []
  | offset, r + 1 => offset :: drop_loop N ((offset + 1) % u32Mod % N) r

/-- `RecvValues::drop` (`src/src/ring/recv_values.rs:153-194`): with no
claim it does nothing; otherwise it drops every remaining value, returns the
claim via `return_claim_cons` (which advances the consumer tail to
`claim.new_tail::<N>()`), and unregisters its consumer. -/
def recv_values_drop (N : Nat) (s : RecvValues) : DropEffects :=
  match s.claim_and_ring with
  | none => ⟨[], none, none, false⟩
  | some claim =>
      ⟨drop_loop N s.offset (claim.entries - s.consumed),
       some claim,
       some (claim.new_tail N),
       true⟩

/-- The drop loop visits exactly the offsets
`offset, offset+1 mod N, …` for `r` steps. -/
theorem drop_loop_eq (k : Nat) (hk : k ≤ 32) :
    ∀ (r offset : Nat), offset < 2 ^ k →
      drop_loop (2 ^ k) offset r
        = (List.range r).map (fun i => (offset + i) % 2 ^ k) := by
  intro r
  induction r with
  | zero => intro offset _; rfl
  | succ r ih =>
    intro offset hoff
    have hstep : (offset + 1) % u32Mod % 2 ^ k = (offset + 1) % 2 ^ k :=
      mod_u32_mod_pow hk _
    have hpos : 0 < 2 ^ k := Nat.one_le_pow k 2 (by norm_num)
    have hlt : (offset + 1) % 2 ^ k < 2 ^ k := Nat.mod_lt _ hpos
    rw [drop_loop, hstep, ih _ hlt, List.range_succ_eq_map]
    simp only [List.map_cons, List.map_map]
    refine congrArg₂ _ ?_ ?_
    · rw [Nat.add_zero, Nat.mod_eq_of_lt hoff]
    · refine List.map_congr_left ?_
      intro i _
      simp only [Function.comp_apply]
      rw [Nat.mod_add_mod]
      congr 1
      omega

/-- C9: dropping a `RecvValues` that still holds a claim with `r > 0`
unconsumed entries runs the destructor of each of the `r` remaining slots
exactly once (the visited offsets are pairwise distinct), returns the claim
— advancing the consumer tail past the whole claim to
`(start + entries) mod N` — and unregisters its consumer; a `RecvValues`
created by `new_empty` holds no ring reference and its drop does nothing. -/
theorem claim_C9_recv_values_drop (k : Nat) (hk1 : 1 ≤ k) (hk : k ≤ 31)
    (s : RecvValues) (claim : ModeClaim) (r : Nat)
    (hc : s.claim_and_ring = some claim)
    (hcons : s.consumed ≤ claim.entries)
    (hoff : s.offset < 2 ^ k)
    (hr : claim.entries - s.consumed = r)
    (hrpos : 0 < r) (hrN : r ≤ 2 ^ k) :
    (recv_values_drop (2 ^ k) s).dropped
        = (List.range r).map (fun i => (s.offset + i) % 2 ^ k) ∧
      (recv_values_drop (2 ^ k) s).dropped.length = r ∧
      (recv_values_drop (2 ^ k) s).dropped.Nodup ∧
      (recv_values_drop (2 ^ k) s).returned_claim = some claim ∧
      (recv_values_drop (2 ^ k) s).new_cons_tail
        = some ((claim.start + claim.entries) % 2 ^ k) ∧
      (recv_values_drop (2 ^ k) s).unregistered = true ∧
      recv_values_drop (2 ^ k) new_empty = ⟨[], none, none, false⟩ := by
  have hk32 : k ≤ 32 := by omega
  have hdropped : (recv_values_drop (2 ^ k) s).dropped
      = (List.range r).map (fun i => (s.offset + i) % 2 ^ k) := by
    unfold recv_values_drop
    rw [hc]
    simp only
    rw [hr, drop_loop_eq k hk32 r s.offset hoff]
  refine ⟨hdropped, ?_, ?_, ?_, ?_, ?_, rfl⟩
  · rw [hdropped, List.length_map, List.length_range]
  · rw [hdropped]
    refine (List.nodup_range r).map_on ?_
    intro i hi j hj hij
    have hi' : i < r := List.mem_range.mp hi
    have hj' : j < r := List.mem_range.mp hj
    have hmod : i % 2 ^ k = j % 2 ^ k :=
      Nat.ModEq.add_left_cancel' s.offset hij
    rw [Nat.mod_eq_of_lt (lt_of_lt_of_le hi' hrN),
      Nat.mod_eq_of_lt (lt_of_lt_of_le hj' hrN)] at hmod
    exact hmod
  · unfold recv_values_drop
    rw [hc]
  · unfold recv_values_drop
    rw [hc]
    simp only [Option.some.injEq]
    unfold ModeClaim.new_tail
    exact mod_u32_mod_pow hk32 _
  · unfold recv_values_drop
    rw [hc]

/-- Witness for C9 at `N = 4`: a half-consumed iterator over a 3-entry claim
starting at slot 3 drops slots `3` and `0`, returns the claim with new
consumer tail `(3 + 3) mod 4 = 2`, and unregisters. -/
theorem claim_C9_recv_values_drop_witness :
    (recv_values_drop (2 ^ 2) ⟨some ⟨3, 3⟩, 1, 0⟩).dropped
        = (List.range 2).map (fun i => (0 + i) % 2 ^ 2) ∧
      (recv_values_drop (2 ^ 2) ⟨some ⟨3, 3⟩, 1, 0⟩).new_cons_tail
        = some ((3 + 3) % 2 ^ 2) ∧
      (recv_values_drop (2 ^ 2) ⟨some ⟨3, 3⟩, 1, 0⟩).unregistered = true := by
  have h := claim_C9_recv_values_drop 2 (by decide) (by decide)
    ⟨some ⟨3, 3⟩, 1, 0⟩ ⟨3, 3⟩ 2 rfl (by decide) (by decide) (by decide)
    (by decide) (by decide)
  exact ⟨h.1, h.2.2.2.2.1, h.2.2.2.2.2.1⟩

end Ringbeam
